import Mathlib

/-!
Verification development for the taxonomy-reconciliation script
`combine_taxonomy.py` of the bold_apscale repository.

A row of either input table is a Python dict mapping column names to
values.  A rank column may be absent from the dict (`Cell.missing`),
hold a pandas NaN (`Cell.null`), or hold a string (`Cell.str`).
The seven taxonomic ranks are fixed; diagnostic columns are carried
as separate fields of the row structures.
-/

namespace CombineTaxonomy

/-- The seven taxonomic ranks, in the script's `levels` order
(most general first). -/
inductive Rank where
  | Kingdom
  | Phylum
  | Class
  | Order
  | Family
  | Genus
  | Species
deriving DecidableEq

/-- One dict entry: the key can be absent from the row dict (`missing`),
hold a pandas NaN (`null`), or hold a string. -/
inductive Cell where
  | missing
  | null
  | str (s : String)
deriving DecidableEq

/-- `levels = ['Kingdom', 'Phylum', 'Class', 'Order', 'Family', 'Genus', 'Species']`. -/
def levels : List Rank :=
  [Rank.Kingdom, Rank.Phylum, Rank.Class, Rank.Order, Rank.Family, Rank.Genus, Rank.Species]

/-- `levels.index(rank)`: 0 = most general. -/
def rankIdx : Rank → Nat
  | Rank.Kingdom => 0
  | Rank.Phylum => 1
  | Rank.Class => 2
  | Rank.Order => 3
  | Rank.Family => 4
  | Rank.Genus => 5
  | Rank.Species => 6

/-- `levels[levels.index(rank) - 1]` when the index stays non-negative:
the next more general rank. -/
def prevRank : Rank → Option Rank
  | Rank.Kingdom => none
  | Rank.Phylum => some Rank.Kingdom
  | Rank.Class => some Rank.Phylum
  | Rank.Order => some Rank.Class
  | Rank.Family => some Rank.Order
  | Rank.Genus => some Rank.Family
  | Rank.Species => some Rank.Genus

/-- `level in row`: the dict offers the key at all. -/
def offered (c : Cell) : Bool := c ≠ Cell.missing

/-- The script's presence test for a rank value:
`row[level] and pd.notna(row[level]) and row[level] != '' and row[level] != 'no-match'`.
A NaN or an absent key is never present; a string is present iff it is
non-empty and not the reserved marker. -/
def present : Cell → Bool
  | Cell.str s => s ≠ "" && s ≠ "no-match"
  | _ => false

/-- One character of Python's `str.lower()`: ASCII upper-case letters map
to their lower-case counterparts (taxonomy values are ASCII). -/
def lowerChar (c : Char) : Char :=
  if 65 ≤ c.toNat && c.toNat ≤ 90 then Char.ofNat (c.toNat + 32) else c

/-- Python's `value.lower()`. -/
def lowerStr (s : String) : String :=
  String.mk (s.data.map lowerChar)

/-- `midori_value.lower() == bold_value.lower()`: defined (and used) only
on string cells. -/
def lowerEq : Cell → Cell → Bool
  | Cell.str s, Cell.str t => lowerStr s = lowerStr t
  | _, _ => false

/-- Python `!=` on the loop values of `find_common_level` / the truncation
guard of `get_best_identification`.  `none` models Python `None`
(`None != None` is `False`); `Cell.null` models NaN (`nan != x` is `True`
for every `x`, NaN itself included); strings compare structurally. -/
def pyNe : Option Cell → Option Cell → Bool
  | none, none => false
  | some Cell.null, _ => true
  | _, some Cell.null => true
  | some (Cell.str s), some (Cell.str t) => s ≠ t
  | some Cell.missing, some Cell.missing => false
  | _, _ => true

/-- `row.get(key, '')`: the raw value when the key is in the dict
(NaN included), the empty string otherwise. -/
def cellGet : Cell → Cell
  | Cell.missing => Cell.str ""
  | c => c

/-- A MIDORI (source A) row: the rank columns plus that source's
diagnostic columns (`Similarity`, `evalue`, `Flag`, `Ambigous taxa`,
`Status`). -/
structure MRow where
  ranks : Rank → Cell
  similarity : Cell := Cell.missing
  evalue : Cell := Cell.missing
  flag : Cell := Cell.missing
  ambigousTaxa : Cell := Cell.missing
  status : Cell := Cell.missing

/-- A BOLD (source B) row: the rank columns plus that source's
diagnostic columns (`pct_identity`, `status`, `records`,
`selected_level`, `BIN`, `flags`). -/
structure BRow where
  ranks : Rank → Cell
  pctIdentity : Cell := Cell.missing
  status : Cell := Cell.missing
  records : Cell := Cell.missing
  selectedLevel : Cell := Cell.missing
  bin : Cell := Cell.missing
  flags : Cell := Cell.missing

/-- The loop body of `get_taxonomy_level`:
`for i, level in enumerate(reversed(levels)): if present: return 7 - i`,
falling through to `0`. -/
def levelScan : List Rank → Nat → (Rank → Cell) → Nat
  | [], _, _ => 0
  | l :: ls, i, row => if present (row l) then 7 - i else levelScan ls (i + 1) row

/-- `get_taxonomy_level(row)`: 7 for a present Species, …, 1 for a row
whose only present rank is Kingdom, 0 when nothing is present. -/
def get_taxonomy_level (row : Rank → Cell) : Nat :=
  levelScan levels.reverse 0 row

/-- The loop of `find_common_level`, walking the given ranks with the
accumulated `common_level`, `midori_value`, `bold_value` state
(`none` = Python `None`).  Mirrors the source line by line:
Kingdom is skipped when BOLD does not offer it; whenever both rows offer
the key the two loop values are overwritten with the raw cells; a
case-insensitive match records the rank and continues; a mismatch stops,
returning Phylum's own values at Phylum and otherwise the one-more-general
rank's raw values when both rows offer it (else `None, None, None`). -/
def fclStep (m : MRow) (b : BRow) :
    List Rank → Option Rank → Option Cell → Option Cell →
    Option Rank × Option Cell × Option Cell
  | [], common, mv, bv => (common, mv, bv)
  | l :: ls, common, mv, bv =>
    if l = Rank.Kingdom && !offered (b.ranks Rank.Kingdom) then
      fclStep m b ls common mv bv
    else if offered (m.ranks l) && offered (b.ranks l) then
      let mv' := some (m.ranks l)
      let bv' := some (b.ranks l)
      if present (m.ranks l) && present (b.ranks l) then
        if lowerEq (m.ranks l) (b.ranks l) then
          fclStep m b ls (some l) mv' bv'
        else if l = Rank.Phylum then
          (some Rank.Phylum, mv', bv')
        else
          match prevRank l with
          | some p =>
            if offered (m.ranks p) && offered (b.ranks p) then
              (some p, some (m.ranks p), some (b.ranks p))
            else
              (none, none, none)
          | none => (none, none, none)
      else
        fclStep m b ls common mv' bv'
    else
      fclStep m b ls common mv bv

/-- `find_common_level(midori_row, bold_row)`: walk the ranks from most
specific to most general starting from the `None` state. -/
def find_common_level (m : MRow) (b : BRow) :
    Option Rank × Option Cell × Option Cell :=
  fclStep m b levels.reverse none none none

/-- The ranks `['Phylum', 'Class', 'Order', 'Family', 'Genus', 'Species']`
over which the wholly-absent test runs (Kingdom excluded). -/
def ranksPS : List Rank :=
  [Rank.Phylum, Rank.Class, Rank.Order, Rank.Family, Rank.Genus, Rank.Species]

/-- `bold_no_match` / `midori_no_match`: every rank of Phylum..Species the
row offers holds `'no-match'`, `''` or NaN (the generator filters on
`level in row`, so unoffered ranks are vacuously fine). -/
def rowNoMatch (row : Rank → Cell) : Bool :=
  ranksPS.all fun l => !offered (row l) || !present (row l)

/-- The secondary search of `get_best_identification` (used when
`find_common_level` returned no common level): walk `levels` from most
general to most specific and take the first rank where both rows offer
the key and both values are present and equal case-insensitively. -/
def secondaryScan (m : MRow) (b : BRow) : List Rank → Option (Rank × Cell × Cell)
  | [] => none
  | l :: ls =>
    if offered (m.ranks l) && offered (b.ranks l) then
      if present (m.ranks l) && present (b.ranks l) then
        if lowerEq (m.ranks l) (b.ranks l) then
          some (l, m.ranks l, b.ranks l)
        else
          secondaryScan m b ls
      else
        secondaryScan m b ls
    else
      secondaryScan m b ls

/-- `common_level, midori_value, bold_value` after the primary call to
`find_common_level` and, when the primary common level is `None`, the
secondary most-general-first search (which overwrites all three on
success and leaves them as the primary walk left them otherwise). -/
def resolveCommon (m : MRow) (b : BRow) :
    Option Rank × Option Cell × Option Cell :=
  match find_common_level m b with
  | (some c, mv, bv) => (some c, mv, bv)
  | (none, mv, bv) =>
    match secondaryScan m b levels with
    | some (l, x, y) => (some l, some x, some y)
    | none => (none, mv, bv)

/-- The per-specimen consensus record built by `get_best_identification`:
a value per rank (`Cell.missing` when the dict lacks the key), the
`ID_source` tag, and the eleven prefixed diagnostic columns. -/
structure Result where
  ranks : Rank → Cell
  source : String
  mSimilarity : Cell
  mEvalue : Cell
  mFlag : Cell
  mAmbigousTaxa : Cell
  mStatus : Cell
  bPctIdentity : Cell
  bStatus : Cell
  bRecords : Cell
  bSelectedLevel : Cell
  bBin : Cell
  bFlags : Cell

/-- `for level in levels: if level in midori_row: result[level] = midori_row[level]`:
offered ranks are copied verbatim, unoffered ranks stay absent from the
dict — pointwise this is exactly the row's rank map. -/
def copyMidoriRanks (m : MRow) : Rank → Cell :=
  fun l => m.ranks l

/-- The BOLD copy step: Kingdom is backfilled from the MIDORI row when
its Kingdom value is present (BOLD's never copied, offered or not), and
Phylum..Species are copied from the BOLD row where offered. -/
def copyBoldRanks (m : MRow) (b : BRow) : Rank → Cell :=
  fun l =>
    match l with
    | Rank.Kingdom =>
      if present (m.ranks Rank.Kingdom) then m.ranks Rank.Kingdom else Cell.missing
    | _ => b.ranks l

/-- The truncation loop
`for i in range(common_index + 1, len(levels)): if levels[i] in result: result[levels[i]] = ''`:
every rank strictly more specific than `c` that the result dict offers
is set to the empty string; ranks the dict lacks stay absent. -/
def clearBelow (c : Rank) (r : Rank → Cell) : Rank → Cell :=
  fun l =>
    if rankIdx c < rankIdx l then
      if offered (r l) then Cell.str "" else Cell.missing
    else r l

/-- `get_best_identification(midori_row, bold_row)`, branch for branch:
the two one-source shortcuts on the wholly-absent tests, then the
general path with the primary/secondary common level, the depth
comparison choosing the copied source (ties to BOLD), and the
same-depth truncation guarded by `common_level and midori_level == bold_level
and midori_value != bold_value`. -/
def get_best_identification (m : MRow) (b : BRow) : Result :=
  let bold_no_match := rowNoMatch b.ranks
  let midori_no_match := rowNoMatch m.ranks
  if bold_no_match && !midori_no_match then
    { ranks := copyMidoriRanks m
      source := "MIDORI"
      mSimilarity := cellGet m.similarity
      mEvalue := cellGet m.evalue
      mFlag := cellGet m.flag
      mAmbigousTaxa := cellGet m.ambigousTaxa
      mStatus := cellGet m.status
      bPctIdentity := Cell.str ""
      bStatus := Cell.str ""
      bRecords := Cell.str ""
      bSelectedLevel := Cell.str ""
      bBin := Cell.str ""
      bFlags := Cell.str "" }
  else if midori_no_match && !bold_no_match then
    { ranks := copyBoldRanks m b
      source := "BOLD"
      mSimilarity := Cell.str ""
      mEvalue := Cell.str ""
      mFlag := Cell.str ""
      mAmbigousTaxa := Cell.str ""
      mStatus := Cell.str ""
      bPctIdentity := cellGet b.pctIdentity
      bStatus := cellGet b.status
      bRecords := cellGet b.records
      bSelectedLevel := cellGet b.selectedLevel
      bBin := cellGet b.bin
      bFlags := cellGet b.flags }
  else
    let t := resolveCommon m b
    let midori_level := get_taxonomy_level m.ranks
    let bold_level := get_taxonomy_level b.ranks
    let base : Rank → Cell :=
      if midori_level > bold_level then copyMidoriRanks m else copyBoldRanks m b
    let ranks : Rank → Cell :=
      match t.1 with
      | some c =>
        if midori_level = bold_level && pyNe t.2.1 t.2.2 then clearBelow c base else base
      | none => base
    { ranks := ranks
      source := if midori_level > bold_level then "MIDORI" else "BOLD"
      mSimilarity := cellGet m.similarity
      mEvalue := cellGet m.evalue
      mFlag := cellGet m.flag
      mAmbigousTaxa := cellGet m.ambigousTaxa
      mStatus := cellGet m.status
      bPctIdentity := cellGet b.pctIdentity
      bStatus := cellGet b.status
      bRecords := cellGet b.records
      bSelectedLevel := cellGet b.selectedLevel
      bBin := cellGet b.bin
      bFlags := cellGet b.flags }

/-- One row of the combined output table: either the consensus record for
a MIDORI row with a BOLD match (`best_id['unique ID'] = unique_id`), or a
MIDORI row passed through verbatim with only `ID_source` added; a
passthrough dict carries no BOLD columns, so those columns are filled
with NaN at table assembly and serialize as empty. -/
inductive OutRow where
  | matched (uid : String) (r : Result)
  | passthrough (uid : String) (row : MRow) (source : String)

/-- The shared identifier of an output row. -/
def OutRow.uid : OutRow → String
  | OutRow.matched u _ => u
  | OutRow.passthrough u _ _ => u

/-- The six BOLD diagnostic cells of an output row; a passthrough row
never received them, so at table assembly they are NaN. -/
def OutRow.boldDiags : OutRow → List Cell
  | OutRow.matched _ r =>
    [r.bPctIdentity, r.bStatus, r.bRecords, r.bSelectedLevel, r.bBin, r.bFlags]
  | OutRow.passthrough _ _ _ =>
    [Cell.null, Cell.null, Cell.null, Cell.null, Cell.null, Cell.null]

/-- How a cell serializes in the output CSV: NaN and an absent key both
become the empty field. -/
def cellOut : Cell → String
  | Cell.str s => s
  | _ => ""

/-- The driver loop of `main`: for each MIDORI row in order, look up the
BOLD rows with the same `unique ID`; on a hit call
`get_best_identification` with the first such row, otherwise pass the
MIDORI row through with `ID_source = 'MIDORI'`. -/
def combineRows (ms : List (String × MRow)) (bs : List (String × BRow)) :
    List OutRow :=
  ms.map fun p =>
    match bs.filter (fun q => q.1 == p.1) with
    | [] => OutRow.passthrough p.1 p.2 "MIDORI"
    | q :: _ => OutRow.matched p.1 (get_best_identification p.2 q.2)

/-- The disagreement-stop condition of the primary walk at one rank:
both rows offer the key, both values are present, and the
case-insensitive comparison fails. -/
def stopsAt (m : MRow) (b : BRow) (l : Rank) : Bool :=
  offered (m.ranks l) && offered (b.ranks l) &&
    (present (m.ranks l) && present (b.ranks l)) &&
    !lowerEq (m.ranks l) (b.ranks l)

lemma present_offered {c : Cell} (h : present c = true) : offered c = true := by
  cases c <;> simp_all [present, offered]

lemma stopsAt_spec {m : MRow} {b : BRow} {l : Rank} (h : stopsAt m b l = true) :
    offered (m.ranks l) = true ∧ offered (b.ranks l) = true ∧
    (present (m.ranks l) && present (b.ranks l)) = true ∧
    lowerEq (m.ranks l) (b.ranks l) = false := by
  simp only [stopsAt, Bool.and_eq_true, Bool.not_eq_true'] at h
  exact ⟨h.1.1.1, h.1.1.2, by simp [h.1.2.1, h.1.2.2], h.2⟩

lemma cellGet_offered {c : Cell} (h : offered c = true) : cellGet c = c := by
  cases c <;> simp_all [offered, cellGet]

/-- A prefix of the walk free of disagreement stops only moves the
accumulated state: the walk goes on into the suffix. -/
lemma fclStep_no_stop (m : MRow) (b : BRow) (ls₁ ls₂ : List Rank)
    (h : ∀ l ∈ ls₁, stopsAt m b l = false) :
    ∀ common mv bv, ∃ c' mv' bv',
      fclStep m b (ls₁ ++ ls₂) common mv bv = fclStep m b ls₂ c' mv' bv' := by
  induction ls₁ with
  | nil => exact fun c mv bv => ⟨c, mv, bv, rfl⟩
  | cons l ls ih =>
    intro c mv bv
    have hl : stopsAt m b l = false := h l (List.mem_cons_self l ls)
    have hls : ∀ x ∈ ls, stopsAt m b x = false :=
      fun x hx => h x (List.mem_cons_of_mem l hx)
    rw [List.cons_append]
    simp only [fclStep]
    by_cases h1 : (decide (l = Rank.Kingdom) && !offered (b.ranks Rank.Kingdom)) = true
    · rw [if_pos h1]; exact ih hls c mv bv
    · rw [if_neg h1]
      by_cases h2 : (offered (m.ranks l) && offered (b.ranks l)) = true
      · rw [if_pos h2]
        by_cases h3 : (present (m.ranks l) && present (b.ranks l)) = true
        · have h4 : lowerEq (m.ranks l) (b.ranks l) = true := by
            by_contra h4
            have : stopsAt m b l = true := by
              simp only [stopsAt, h2, h3, Bool.true_and]
              simp [Bool.eq_false_iff.2 h4]
            simp [this] at hl
          rw [if_pos h3, if_pos h4]
          exact ih hls (some l) _ _
        · rw [if_neg h3]
          exact ih hls c _ _
      · rw [if_neg h2]; exact ih hls c mv bv

/-- When every rank both rows offer carries present, case-insensitively
equal values, a walk ending with no common level implies it started with
none and met no rank offered by both rows. -/
lemma fclStep_agree_none (m : MRow) (b : BRow)
    (H : ∀ l : Rank, (offered (m.ranks l) && offered (b.ranks l)) = true →
      (present (m.ranks l) && present (b.ranks l)) = true ∧
      lowerEq (m.ranks l) (b.ranks l) = true) :
    ∀ ls (c : Option Rank) mv bv, (fclStep m b ls c mv bv).1 = none →
      c = none ∧ ∀ l ∈ ls, (offered (m.ranks l) && offered (b.ranks l)) = false := by
  intro ls
  induction ls with
  | nil =>
    intro c mv bv h
    exact ⟨by simpa [fclStep] using h, by simp⟩
  | cons l ls ih =>
    intro c mv bv h
    simp only [fclStep] at h
    by_cases h1 : (decide (l = Rank.Kingdom) && !offered (b.ranks Rank.Kingdom)) = true
    · rw [if_pos h1] at h
      obtain ⟨hc, hrest⟩ := ih c mv bv h
      refine ⟨hc, ?_⟩
      intro x hx
      rcases List.mem_cons.1 hx with rfl | hx'
      · have hk : decide (x = Rank.Kingdom) = true ∧
            (!offered (b.ranks Rank.Kingdom)) = true := by
          simpa [Bool.and_eq_true] using h1
        have hxk : x = Rank.Kingdom := by simpa using hk.1
        subst hxk
        have : offered (b.ranks Rank.Kingdom) = false := by
          simpa using hk.2
        simp [this]
      · exact hrest x hx'
    · rw [if_neg h1] at h
      by_cases h2 : (offered (m.ranks l) && offered (b.ranks l)) = true
      · rw [if_pos h2] at h
        obtain ⟨h3, h4⟩ := H l h2
        rw [if_pos h3, if_pos h4] at h
        obtain ⟨hc, _⟩ := ih (some l) _ _ h
        exact absurd hc (by simp)
      · rw [if_neg h2] at h
        obtain ⟨hc, hrest⟩ := ih c mv bv h
        refine ⟨hc, ?_⟩
        intro x hx
        rcases List.mem_cons.1 hx with rfl | hx'
        · simpa using h2
        · exact hrest x hx'

/-- The secondary search finds nothing when no rank is offered by both
rows. -/
lemma secondaryScan_none (m : MRow) (b : BRow) :
    ∀ ls, (∀ l ∈ ls, (offered (m.ranks l) && offered (b.ranks l)) = false) →
      secondaryScan m b ls = none := by
  intro ls
  induction ls with
  | nil => intro _; rfl
  | cons l ls ih =>
    intro h
    have hl : (offered (m.ranks l) && offered (b.ranks l)) = false :=
      h l (List.mem_cons_self l ls)
    have hls := fun x hx => h x (List.mem_cons_of_mem l hx)
    simp only [secondaryScan]
    rw [if_neg (by simp [hl])]
    exact ih hls

/-- When the MIDORI row has no present rank value at all, the walk never
stops and never records a common level. -/
lemma fclStep_absent (m : MRow) (b : BRow)
    (hpm : ∀ l : Rank, present (m.ranks l) = false) :
    ∀ ls (c : Option Rank) mv bv, ∃ mv' bv',
      fclStep m b ls c mv bv = (c, mv', bv') := by
  intro ls
  induction ls with
  | nil => exact fun c mv bv => ⟨mv, bv, rfl⟩
  | cons l ls ih =>
    intro c mv bv
    simp only [fclStep]
    by_cases h1 : (decide (l = Rank.Kingdom) && !offered (b.ranks Rank.Kingdom)) = true
    · rw [if_pos h1]; exact ih c mv bv
    · rw [if_neg h1]
      by_cases h2 : (offered (m.ranks l) && offered (b.ranks l)) = true
      · rw [if_pos h2]
        rw [if_neg (by simp [hpm l])]
        exact ih c _ _
      · rw [if_neg h2]; exact ih c mv bv

/-- When the MIDORI row has no present rank value, the secondary search
also finds nothing. -/
lemma secondaryScan_absent (m : MRow) (b : BRow)
    (hpm : ∀ l : Rank, present (m.ranks l) = false) :
    ∀ ls, secondaryScan m b ls = none := by
  intro ls
  induction ls with
  | nil => rfl
  | cons l ls ih =>
    simp only [secondaryScan]
    by_cases h2 : (offered (m.ranks l) && offered (b.ranks l)) = true
    · rw [if_pos h2, if_neg (by simp [hpm l])]
      exact ih
    · rw [if_neg h2]; exact ih

/-! Concrete rows used below.  Each is a dict: ranks not listed in the
match are absent from the dict (`Cell.missing`) or hold the empty
string, as noted. -/

/-- A MIDORI row offering exactly Phylum = Arthropoda, Class = Insecta. -/
def mAgree : MRow :=
  { ranks := fun l => match l with
      | Rank.Phylum => Cell.str "Arthropoda"
      | Rank.Class => Cell.str "Insecta"
      | _ => Cell.missing }

/-- A BOLD row offering exactly Phylum = Arthropoda, Class = Insecta. -/
def bAgree : BRow :=
  { ranks := fun l => match l with
      | Rank.Phylum => Cell.str "Arthropoda"
      | Rank.Class => Cell.str "Insecta"
      | _ => Cell.missing }

/-- A BOLD row offering exactly Phylum = arthropoda (lower case),
Class = Insecta. -/
def bCase : BRow :=
  { ranks := fun l => match l with
      | Rank.Phylum => Cell.str "arthropoda"
      | Rank.Class => Cell.str "Insecta"
      | _ => Cell.missing }

/-- The C3 scenario's MIDORI row: Kingdom unfilled, Phylum = Arthropoda,
Class = Insecta, Order = Diptera, Family = no-match, Genus and Species
unfilled (resolution depth 4). -/
def mScen : MRow :=
  { ranks := fun l => match l with
      | Rank.Kingdom => Cell.str ""
      | Rank.Phylum => Cell.str "Arthropoda"
      | Rank.Class => Cell.str "Insecta"
      | Rank.Order => Cell.str "Diptera"
      | Rank.Family => Cell.str "no-match"
      | _ => Cell.str "" }

/-- The C3 scenario's BOLD row: no Kingdom column, Phylum = Arthropoda,
Class = Insecta, Order = Coleoptera, Family = Carabidae, Genus and
Species unfilled (resolution depth 5). -/
def bScen : BRow :=
  { ranks := fun l => match l with
      | Rank.Kingdom => Cell.missing
      | Rank.Phylum => Cell.str "Arthropoda"
      | Rank.Class => Cell.str "Insecta"
      | Rank.Order => Cell.str "Coleoptera"
      | Rank.Family => Cell.str "Carabidae"
      | _ => Cell.str "" }

/-- A MIDORI row with Kingdom = Animalia, Phylum = Arthropoda,
Class = Insecta, Order = Diptera, the rest unfilled (depth 4). -/
def mDeep : MRow :=
  { ranks := fun l => match l with
      | Rank.Kingdom => Cell.str "Animalia"
      | Rank.Phylum => Cell.str "Arthropoda"
      | Rank.Class => Cell.str "Insecta"
      | Rank.Order => Cell.str "Diptera"
      | _ => Cell.str "" }

/-- A BOLD row with Kingdom = animalia, Phylum = Arthropoda,
Class = insecta, Order = Hymenoptera, the rest unfilled (depth 4):
same depth as `mDeep`, agreeing case-insensitively down to Class and
disagreeing at Order. -/
def bDeep : BRow :=
  { ranks := fun l => match l with
      | Rank.Kingdom => Cell.str "animalia"
      | Rank.Phylum => Cell.str "Arthropoda"
      | Rank.Class => Cell.str "insecta"
      | Rank.Order => Cell.str "Hymenoptera"
      | _ => Cell.str "" }

/-- A MIDORI row disagreeing with `bGap` at Order: Phylum = Arthropoda,
Class = Insecta, Order = Diptera, the rest unfilled. -/
def mGap : MRow :=
  { ranks := fun l => match l with
      | Rank.Phylum => Cell.str "Arthropoda"
      | Rank.Class => Cell.str "Insecta"
      | Rank.Order => Cell.str "Diptera"
      | _ => Cell.str "" }

/-- A BOLD row lacking the Kingdom and Class columns entirely, with
Phylum = Arthropoda and Order = Hymenoptera. -/
def bGap : BRow :=
  { ranks := fun l => match l with
      | Rank.Kingdom => Cell.missing
      | Rank.Class => Cell.missing
      | Rank.Phylum => Cell.str "Arthropoda"
      | Rank.Order => Cell.str "Hymenoptera"
      | _ => Cell.str "" }

/-- A MIDORI row disagreeing at Phylum: Phylum = Mollusca, Kingdom =
Animalia, everything else unfilled. -/
def mPhy : MRow :=
  { ranks := fun l => match l with
      | Rank.Kingdom => Cell.str "Animalia"
      | Rank.Phylum => Cell.str "Mollusca"
      | _ => Cell.str "" }

/-- A BOLD row with Kingdom = Plantae and Phylum = Arthropoda, everything
else unfilled: it disagrees with `mPhy` at Phylum and at Kingdom. -/
def bPhy : BRow :=
  { ranks := fun l => match l with
      | Rank.Kingdom => Cell.str "Plantae"
      | Rank.Phylum => Cell.str "Arthropoda"
      | _ => Cell.str "" }

/-- A MIDORI row agreeing with `bKing` at Class but with a different
Kingdom: Kingdom = Animalia, Class = Insecta, the rest unfilled. -/
def mKing : MRow :=
  { ranks := fun l => match l with
      | Rank.Kingdom => Cell.str "Animalia"
      | Rank.Class => Cell.str "Insecta"
      | _ => Cell.str "" }

/-- A BOLD row offering Kingdom = Plantae and Class = Insecta, the rest
unfilled. -/
def bKing : BRow :=
  { ranks := fun l => match l with
      | Rank.Kingdom => Cell.str "Plantae"
      | Rank.Class => Cell.str "Insecta"
      | _ => Cell.str "" }

/-- A MIDORI row with a present Kingdom = Animalia and every rank of
Phylum..Species unfilled. -/
def mOnlyKing : MRow :=
  { ranks := fun l => match l with
      | Rank.Kingdom => Cell.str "Animalia"
      | _ => Cell.str "" }

/-- A BOLD row with no Kingdom column and every rank of Phylum..Species
unfilled. -/
def bEmpty : BRow :=
  { ranks := fun l => match l with
      | Rank.Kingdom => Cell.missing
      | _ => Cell.str "" }

/-- A MIDORI row with every rank unfilled. -/
def mEmpty : MRow :=
  { ranks := fun _ => Cell.str "" }

/-! The claims. -/

/-- Claim C1 (code bug evaluation).  On the failing input — two rows that
offer exactly Phylum and Class, with identical present values at both —
`find_common_level` returns Phylum, the most *general* commonly-offered
rank, with the Phylum values: its walk overwrites `common_level` at
every case-insensitive match on the way from most specific to most
general, although its own comments say it continues "to more specific
level" and returns "the most specific common level" (the claim's and the
spec's reading, which here would be Class with the Class values). -/
theorem C1_code_eval :
    find_common_level mAgree bAgree =
      (some Rank.Phylum, some (Cell.str "Arthropoda"), some (Cell.str "Arthropoda")) := by
  decide

/-- Claim C3 (counterexample).  On the spec's own scenario rows the
depths are 4 and 5, so the same-depth truncation branch cannot fire:
the output keeps BOLD's Order = Coleoptera and Family = Carabidae as
present values, contradicting the claim that Order, Family, Genus and
Species are cleared. -/
theorem C3_counterexample :
    get_taxonomy_level mScen.ranks = 4 ∧
    get_taxonomy_level bScen.ranks = 5 ∧
    (get_best_identification mScen bScen).ranks Rank.Order = Cell.str "Coleoptera" ∧
    (get_best_identification mScen bScen).ranks Rank.Family = Cell.str "Carabidae" ∧
    present ((get_best_identification mScen bScen).ranks Rank.Order) = true := by
  decide

/-- Claim C3 (amended).  On the scenario rows the common rank is Class
with value Insecta on both sides, the source is chosen by the depth
comparison (depth 4 vs 5, so BOLD), and — because the depths differ —
nothing is cleared: the output carries BOLD's Phylum = Arthropoda,
Class = Insecta, Order = Coleoptera and Family = Carabidae, with Genus
and Species unfilled and Kingdom absent. -/
theorem C3_amended :
    resolveCommon mScen bScen =
      (some Rank.Class, some (Cell.str "Insecta"), some (Cell.str "Insecta")) ∧
    (get_best_identification mScen bScen).source = "BOLD" ∧
    (get_best_identification mScen bScen).ranks Rank.Kingdom = Cell.missing ∧
    (get_best_identification mScen bScen).ranks Rank.Phylum = Cell.str "Arthropoda" ∧
    (get_best_identification mScen bScen).ranks Rank.Class = Cell.str "Insecta" ∧
    (get_best_identification mScen bScen).ranks Rank.Order = Cell.str "Coleoptera" ∧
    (get_best_identification mScen bScen).ranks Rank.Family = Cell.str "Carabidae" ∧
    (get_best_identification mScen bScen).ranks Rank.Genus = Cell.str "" ∧
    (get_best_identification mScen bScen).ranks Rank.Species = Cell.str "" := by
  decide

/-- Claim C5 (confirmed).  Whenever the walk meets no disagreement stop
at Species..Class and the first disagreement is at Phylum (both offered,
both present, case-insensitively unequal), `find_common_level` returns
Phylum itself with both rows' Phylum values — with no constraint at all
on the Kingdom values, which may also differ. -/
theorem C5_phylum_disagreement (m : MRow) (b : BRow)
    (hpre : ∀ l ∈ [Rank.Species, Rank.Genus, Rank.Family, Rank.Order, Rank.Class],
      stopsAt m b l = false)
    (hstop : stopsAt m b Rank.Phylum = true) :
    find_common_level m b =
      (some Rank.Phylum, some (m.ranks Rank.Phylum), some (b.ranks Rank.Phylum)) := by
  have hsplit : levels.reverse =
      [Rank.Species, Rank.Genus, Rank.Family, Rank.Order, Rank.Class] ++
        [Rank.Phylum, Rank.Kingdom] := by decide
  obtain ⟨c', mv', bv', heq⟩ :=
    fclStep_no_stop m b
      [Rank.Species, Rank.Genus, Rank.Family, Rank.Order, Rank.Class]
      [Rank.Phylum, Rank.Kingdom] hpre none none none
  obtain ⟨hom, hob, hpr, hle⟩ := stopsAt_spec hstop
  rw [find_common_level, hsplit, heq]
  simp only [fclStep]
  rw [if_neg (by simp), if_pos (by simp [hom, hob]), if_pos hpr,
    if_neg (by simp [hle])]
  simp

/-- Claim C5 (witness): on `mPhy`/`bPhy` the first disagreement is at
Phylum (Kingdom also differs there), and Phylum with both Phylum values
is returned. -/
theorem C5_witness :
    find_common_level mPhy bPhy =
      (some Rank.Phylum, some (Cell.str "Mollusca"), some (Cell.str "Arthropoda")) :=
  C5_phylum_disagreement mPhy bPhy (by decide) (by decide)

/-- Claim C6 (counterexample).  `mGap` and `bGap` meet their first
disagreement at Order (Diptera vs Hymenoptera), but `bGap` lacks the
Class column, so instead of returning the more general rank Class with
both rows' raw values there, `find_common_level` returns
`(None, None, None)`. -/
theorem C6_counterexample :
    stopsAt mGap bGap Rank.Order = true ∧
    mGap.ranks Rank.Class = Cell.str "Insecta" ∧
    (find_common_level mGap bGap).1 = none := by
  decide

/-- Claim C6 (amended).  When the first disagreement met by the walk is
at a rank `l` other than Phylum, the function returns the one-rank-more-
general rank with the two rows' raw values there — with no further
comparison of those values — provided such a rank exists and both rows
offer it; otherwise it returns `(None, None, None)`.  -/
theorem C6_gen_disagreement (m : MRow) (b : BRow) (l : Rank)
    (ls₁ ls₂ : List Rank)
    (hsplit : levels.reverse = ls₁ ++ l :: ls₂)
    (hpre : ∀ r ∈ ls₁, stopsAt m b r = false)
    (hstop : stopsAt m b l = true)
    (hnp : l ≠ Rank.Phylum) :
    find_common_level m b =
      match prevRank l with
      | some p =>
        if offered (m.ranks p) && offered (b.ranks p) then
          (some p, some (m.ranks p), some (b.ranks p))
        else (none, none, none)
      | none => (none, none, none) := by
  obtain ⟨c', mv', bv', heq⟩ := fclStep_no_stop m b ls₁ (l :: ls₂) hpre none none none
  obtain ⟨hom, hob, hpr, hle⟩ := stopsAt_spec hstop
  have hg1 : (decide (l = Rank.Kingdom) && !offered (b.ranks Rank.Kingdom)) = false := by
    by_cases hk : l = Rank.Kingdom
    · subst hk; simp [hob]
    · simp [hk]
  rw [find_common_level, hsplit, heq]
  simp only [fclStep]
  rw [if_neg (by simp [hg1]), if_pos (by simp [hom, hob]), if_pos hpr,
    if_neg (by simp [hle]), if_neg hnp]

/-- Claim C6 (witness): applying the amended theorem at `mGap`/`bGap`,
whose disagreement rank is Order and whose more general rank Class is
not offered by `bGap`, yields `(None, None, None)`. -/
theorem C6_witness :
    find_common_level mGap bGap = (none, none, none) := by
  have h := C6_gen_disagreement mGap bGap Rank.Order
    [Rank.Species, Rank.Genus, Rank.Family]
    [Rank.Class, Rank.Phylum, Rank.Kingdom]
    (by decide) (by decide) (by decide) (by decide)
  simpa using h

/-- Claim C10 (confirmed).  When both rows offer Kingdom with present,
case-insensitively different values and the walk meets no disagreement
stop at any more specific rank, `find_common_level` returns
`(None, None, None)`: the differing rank is Kingdom, `levels.index`
gives no more general rank to fall back to, and any agreement recorded
deeper in the walk is discarded. -/
theorem C10_kingdom_disagreement (m : MRow) (b : BRow)
    (hpre : ∀ l ∈ [Rank.Species, Rank.Genus, Rank.Family, Rank.Order, Rank.Class,
      Rank.Phylum], stopsAt m b l = false)
    (hstop : stopsAt m b Rank.Kingdom = true) :
    find_common_level m b = (none, none, none) := by
  have hsplit : levels.reverse =
      [Rank.Species, Rank.Genus, Rank.Family, Rank.Order, Rank.Class, Rank.Phylum] ++
        [Rank.Kingdom] := by decide
  obtain ⟨c', mv', bv', heq⟩ :=
    fclStep_no_stop m b
      [Rank.Species, Rank.Genus, Rank.Family, Rank.Order, Rank.Class, Rank.Phylum]
      [Rank.Kingdom] hpre none none none
  obtain ⟨hom, hob, hpr, hle⟩ := stopsAt_spec hstop
  rw [find_common_level, hsplit, heq]
  simp only [fclStep]
  rw [if_neg (by simp [hob]), if_pos (by simp [hom, hob]), if_pos hpr,
    if_neg (by simp [hle]), if_neg (by decide)]
  rfl

/-- Claim C10 (witness): `mKing` and `bKing` agree at Class, disagree at
Kingdom (Animalia vs Plantae), and the recorded Class agreement is
discarded: the function returns `(None, None, None)`. -/
theorem C10_witness :
    find_common_level mKing bKing = (none, none, none) :=
  C10_kingdom_disagreement mKing bKing (by decide) (by decide)

lemma noMatch_not_present {row : Rank → Cell} (h : rowNoMatch row = true) :
    ∀ l ∈ ranksPS, present (row l) = false := by
  intro l hl
  have h' : (!offered (row l) || !present (row l)) = true := by
    have hAll : ∀ x ∈ ranksPS, (!offered (row x) || !present (row x)) = true := by
      simpa [rowNoMatch, List.all_eq_true] using h
    exact hAll l hl
  cases hpc : present (row l) with
  | false => rfl
  | true =>
    have ho := present_offered hpc
    rw [ho, hpc] at h'
    simp at h'

/-- Claim C7 (confirmed).  When the BOLD row is wholly absent over
Phylum..Species and the MIDORI row is not, the result is tagged MIDORI,
its rank map is exactly the MIDORI row's (every offered rank copied,
unoffered ranks absent), all six BOLD diagnostic fields are set to the
empty string, and — provided the MIDORI row carries its five diagnostic
columns — those are copied verbatim. -/
theorem C7_bold_wholly_absent (m : MRow) (b : BRow)
    (hb : rowNoMatch b.ranks = true) (hm : rowNoMatch m.ranks = false)
    (hd1 : offered m.similarity = true) (hd2 : offered m.evalue = true)
    (hd3 : offered m.flag = true) (hd4 : offered m.ambigousTaxa = true)
    (hd5 : offered m.status = true) :
    (get_best_identification m b).source = "MIDORI" ∧
    (∀ l, (get_best_identification m b).ranks l = m.ranks l) ∧
    (get_best_identification m b).bPctIdentity = Cell.str "" ∧
    (get_best_identification m b).bStatus = Cell.str "" ∧
    (get_best_identification m b).bRecords = Cell.str "" ∧
    (get_best_identification m b).bSelectedLevel = Cell.str "" ∧
    (get_best_identification m b).bBin = Cell.str "" ∧
    (get_best_identification m b).bFlags = Cell.str "" ∧
    (get_best_identification m b).mSimilarity = m.similarity ∧
    (get_best_identification m b).mEvalue = m.evalue ∧
    (get_best_identification m b).mFlag = m.flag ∧
    (get_best_identification m b).mAmbigousTaxa = m.ambigousTaxa ∧
    (get_best_identification m b).mStatus = m.status := by
  have hg1 : (rowNoMatch b.ranks && !rowNoMatch m.ranks) = true := by
    simp [hb, hm]
  simp only [get_best_identification]
  rw [if_pos hg1]
  simp [copyMidoriRanks, cellGet_offered hd1, cellGet_offered hd2,
    cellGet_offered hd3, cellGet_offered hd4, cellGet_offered hd5]

/-- A MIDORI row with Phylum Arthropoda and its five diagnostic columns
filled, used to witness the BOLD-wholly-absent branch. -/
def mDiag : MRow :=
  { ranks := fun l => match l with
      | Rank.Phylum => Cell.str "Arthropoda"
      | _ => Cell.str ""
    similarity := Cell.str "99.1"
    evalue := Cell.str "1e-50"
    flag := Cell.str "ok"
    ambigousTaxa := Cell.str ""
    status := Cell.str "done" }

/-- A BOLD row whose every rank of Phylum..Species holds the no-match
marker. -/
def bNoMatch : BRow :=
  { ranks := fun l => match l with
      | Rank.Kingdom => Cell.missing
      | _ => Cell.str "no-match"
    pctIdentity := Cell.str "97.0"
    status := Cell.str "done"
    records := Cell.str "5"
    selectedLevel := Cell.str "species"
    bin := Cell.str "BOLD:AAA0001"
    flags := Cell.str "" }

/-- Claim C7 (witness): at `mDiag`/`bNoMatch` the branch fires, the
result is tagged MIDORI with Phylum Arthropoda, the BOLD percent-identity
field is emptied and MIDORI's similarity is copied verbatim. -/
theorem C7_witness :
    (get_best_identification mDiag bNoMatch).source = "MIDORI" ∧
    (get_best_identification mDiag bNoMatch).ranks Rank.Phylum = Cell.str "Arthropoda" ∧
    (get_best_identification mDiag bNoMatch).bPctIdentity = Cell.str "" ∧
    (get_best_identification mDiag bNoMatch).mSimilarity = Cell.str "99.1" := by
  have h := C7_bold_wholly_absent mDiag bNoMatch (by decide) (by decide)
    (by decide) (by decide) (by decide) (by decide) (by decide)
  exact ⟨h.1, h.2.1 Rank.Phylum, h.2.2.1, h.2.2.2.2.2.2.2.2.1⟩

/-- Claim C9 (counterexample).  `mOnlyKing` is wholly absent over
Phylum..Species but carries a present Kingdom = Animalia, and `bEmpty`
is wholly absent; the depths are then 1 and 0 — not a tie — so the
source tag is MIDORI, not BOLD, and the result keeps Kingdom = Animalia
rather than having all seven ranks empty. -/
theorem C9_counterexample :
    rowNoMatch mOnlyKing.ranks = true ∧
    rowNoMatch bEmpty.ranks = true ∧
    (get_best_identification mOnlyKing bEmpty).source = "MIDORI" ∧
    (get_best_identification mOnlyKing bEmpty).ranks Rank.Kingdom = Cell.str "Animalia" := by
  decide

/-- Claim C9 (amended).  When both rows are wholly absent over
Phylum..Species *and neither row has a present Kingdom value*, the
general fallback path runs over two effectively empty records, both
depths are 0, the tie selects source BOLD, and every rank of the result
is value-absent. -/
theorem C9_both_wholly_absent (m : MRow) (b : BRow)
    (hm : rowNoMatch m.ranks = true) (hb : rowNoMatch b.ranks = true)
    (hkm : present (m.ranks Rank.Kingdom) = false)
    (hkb : present (b.ranks Rank.Kingdom) = false) :
    (get_best_identification m b).source = "BOLD" ∧
    ∀ l, present ((get_best_identification m b).ranks l) = false := by
  have hmP : ∀ l : Rank, present (m.ranks l) = false := by
    intro l
    cases l with
    | Kingdom => exact hkm
    | Phylum => exact noMatch_not_present hm Rank.Phylum (by decide)
    | Class => exact noMatch_not_present hm Rank.Class (by decide)
    | Order => exact noMatch_not_present hm Rank.Order (by decide)
    | Family => exact noMatch_not_present hm Rank.Family (by decide)
    | Genus => exact noMatch_not_present hm Rank.Genus (by decide)
    | Species => exact noMatch_not_present hm Rank.Species (by decide)
  have hbP : ∀ l : Rank, present (b.ranks l) = false := by
    intro l
    cases l with
    | Kingdom => exact hkb
    | Phylum => exact noMatch_not_present hb Rank.Phylum (by decide)
    | Class => exact noMatch_not_present hb Rank.Class (by decide)
    | Order => exact noMatch_not_present hb Rank.Order (by decide)
    | Family => exact noMatch_not_present hb Rank.Family (by decide)
    | Genus => exact noMatch_not_present hb Rank.Genus (by decide)
    | Species => exact noMatch_not_present hb Rank.Species (by decide)
  have hrev : levels.reverse = [Rank.Species, Rank.Genus, Rank.Family, Rank.Order,
      Rank.Class, Rank.Phylum, Rank.Kingdom] := by decide
  have hdm : get_taxonomy_level m.ranks = 0 := by
    rw [get_taxonomy_level, hrev]
    simp [levelScan, hmP]
  have hdb : get_taxonomy_level b.ranks = 0 := by
    rw [get_taxonomy_level, hrev]
    simp [levelScan, hbP]
  obtain ⟨mv', bv', hfcl⟩ := fclStep_absent m b hmP levels.reverse none none none
  have hfcl' : find_common_level m b = (none, mv', bv') := hfcl
  have hsec := secondaryScan_absent m b hmP levels
  have hres : resolveCommon m b = (none, mv', bv') := by
    simp [resolveCommon, hfcl', hsec]
  simp only [get_best_identification]
  rw [if_neg (by simp [hm]), if_neg (by simp [hb]), hres]
  simp only [hdm, hdb]
  constructor
  · simp
  · intro l
    cases l with
    | Kingdom =>
      simp [copyBoldRanks]
      rw [hkm]
      simp [present]
    | Phylum => simp [copyBoldRanks, hbP]
    | Class => simp [copyBoldRanks, hbP]
    | Order => simp [copyBoldRanks, hbP]
    | Family => simp [copyBoldRanks, hbP]
    | Genus => simp [copyBoldRanks, hbP]
    | Species => simp [copyBoldRanks, hbP]

/-- Claim C9 (witness): with both rows entirely unfilled (Kingdom
included), the tie selects BOLD and Species — like every rank — is
value-absent. -/
theorem C9_witness :
    (get_best_identification mEmpty bEmpty).source = "BOLD" ∧
    present ((get_best_identification mEmpty bEmpty).ranks Rank.Species) = false := by
  have h := C9_both_wholly_absent mEmpty bEmpty (by decide) (by decide)
    (by decide) (by decide)
  exact ⟨h.1, h.2 Rank.Species⟩

/-- Claim C2 (counterexample).  `mAgree` and `bCase` agree
case-insensitively at every rank both offer (Phylum Arthropoda vs
arthropoda, Class Insecta vs Insecta), yet the build truncates: the walk
reports Phylum — the most general commonly-offered rank — whose raw
values differ in case only, the depths tie (3 = 3), and the truncation
branch clears Class in the output even though both rows carried the
identical present value Insecta there. -/
theorem C2_counterexample :
    lowerEq (mAgree.ranks Rank.Phylum) (bCase.ranks Rank.Phylum) = true ∧
    lowerEq (mAgree.ranks Rank.Class) (bCase.ranks Rank.Class) = true ∧
    offered (mAgree.ranks Rank.Kingdom) = false ∧
    offered (mAgree.ranks Rank.Order) = false ∧
    offered (mAgree.ranks Rank.Family) = false ∧
    offered (mAgree.ranks Rank.Genus) = false ∧
    offered (mAgree.ranks Rank.Species) = false ∧
    bCase.ranks Rank.Class = Cell.str "Insecta" ∧
    (get_best_identification mAgree bCase).source = "BOLD" ∧
    (get_best_identification mAgree bCase).ranks Rank.Class = Cell.str "" := by
  decide

/-- Claim C2 (amended).  When the two rows have present,
case-insensitively equal values at every rank both offer, the walk never
takes its disagreement branch; and provided the two values
`find_common_level` returns are moreover equal under Python `!=` (e.g.
identical in case), no rank is cleared: every rank of Phylum..Species in
the output is exactly the chosen source's value. -/
theorem C2_agreement_no_truncation (m : MRow) (b : BRow)
    (H : ∀ l : Rank, offered (m.ranks l) = true → offered (b.ranks l) = true →
      present (m.ranks l) = true ∧ present (b.ranks l) = true ∧
        lowerEq (m.ranks l) (b.ranks l) = true)
    (hraw : pyNe (find_common_level m b).2.1 (find_common_level m b).2.2 = false) :
    ∀ l ∈ ranksPS,
      (get_best_identification m b).ranks l =
        if (get_best_identification m b).source = "MIDORI" then m.ranks l
        else b.ranks l := by
  intro l hl
  have hlK : l ≠ Rank.Kingdom := by
    intro h
    subst h
    simp [ranksPS] at hl
  by_cases hg1 : (rowNoMatch b.ranks && !rowNoMatch m.ranks) = true
  · simp only [get_best_identification]
    rw [if_pos hg1]
    simp [copyMidoriRanks]
  · by_cases hg2 : (rowNoMatch m.ranks && !rowNoMatch b.ranks) = true
    · simp only [get_best_identification]
      rw [if_neg hg1, if_pos hg2]
      cases l with
      | Kingdom => exact absurd rfl hlK
      | Phylum => simp [copyBoldRanks]
      | Class => simp [copyBoldRanks]
      | Order => simp [copyBoldRanks]
      | Family => simp [copyBoldRanks]
      | Genus => simp [copyBoldRanks]
      | Species => simp [copyBoldRanks]
    · have H' : ∀ x : Rank, (offered (m.ranks x) && offered (b.ranks x)) = true →
          (present (m.ranks x) && present (b.ranks x)) = true ∧
            lowerEq (m.ranks x) (b.ranks x) = true := by
        intro x hx
        rw [Bool.and_eq_true] at hx
        obtain ⟨p1, p2, p3⟩ := H x hx.1 hx.2
        exact ⟨by simp [p1, p2], p3⟩
      rcases hfcl : find_common_level m b with ⟨copt, mv, bv⟩
      have hbase : ∀ l' ∈ ranksPS,
          (get_best_identification m b).ranks l' =
            (if get_taxonomy_level m.ranks > get_taxonomy_level b.ranks then
              copyMidoriRanks m else copyBoldRanks m b) l' ∧
          (get_best_identification m b).source =
            (if get_taxonomy_level m.ranks > get_taxonomy_level b.ranks then
              "MIDORI" else "BOLD") := by
        intro l' hl'
        cases copt with
        | some c =>
          have hres : resolveCommon m b = (some c, mv, bv) := by
            simp [resolveCommon, hfcl]
          have hraw' : pyNe mv bv = false := by
            rw [hfcl] at hraw
            exact hraw
          simp only [get_best_identification]
          rw [if_neg hg1, if_neg hg2, hres]
          simp [hraw']
        | none =>
          have hnone : (fclStep m b levels.reverse none none none).1 = none := by
            rw [show fclStep m b levels.reverse none none none =
              find_common_level m b from rfl, hfcl]
          obtain ⟨-, hall⟩ :=
            fclStep_agree_none m b H' levels.reverse none none none hnone
          have hsec : secondaryScan m b levels = none := by
            apply secondaryScan_none
            intro x hx
            exact hall x (List.mem_reverse.2 hx)
          have hres : resolveCommon m b = (none, mv, bv) := by
            simp [resolveCommon, hfcl, hsec]
          simp only [get_best_identification]
          rw [if_neg hg1, if_neg hg2, hres]
          simp
      obtain ⟨hr, hs⟩ := hbase l hl
      rw [hr, hs]
      by_cases hd : get_taxonomy_level m.ranks > get_taxonomy_level b.ranks
      · simp [hd, copyMidoriRanks]
      · rw [if_neg hd, if_neg hd]
        rw [if_neg (by decide)]
        cases l with
        | Kingdom => exact absurd rfl hlK
        | Phylum => simp [copyBoldRanks]
        | Class => simp [copyBoldRanks]
        | Order => simp [copyBoldRanks]
        | Family => simp [copyBoldRanks]
        | Genus => simp [copyBoldRanks]
        | Species => simp [copyBoldRanks]

/-- Claim C2 (witness): `mAgree` and `bAgree` agree with identical case
everywhere both offer a rank; the chosen source's Class value is kept
untruncated. -/
theorem C2_witness :
    (get_best_identification mAgree bAgree).ranks Rank.Class =
      (if (get_best_identification mAgree bAgree).source = "MIDORI" then
        mAgree.ranks Rank.Class
      else bAgree.ranks Rank.Class) :=
  C2_agreement_no_truncation mAgree bAgree
    (by intro l; cases l <;> decide) (by decide) Rank.Class (by decide)

/-- Claim C4 (counterexample).  `mDeep`/`bDeep` have equal depths (4),
the walk stops at Order and reports Class with values Insecta vs
insecta (differing, so truncation fires); the source is BOLD, but the
more general rank Kingdom does not keep the chosen source's value:
BOLD's Kingdom is animalia while the result holds Animalia, backfilled
from the MIDORI row. -/
theorem C4_counterexample :
    get_taxonomy_level mDeep.ranks = get_taxonomy_level bDeep.ranks ∧
    resolveCommon mDeep bDeep =
      (some Rank.Class, some (Cell.str "Insecta"), some (Cell.str "insecta")) ∧
    (get_best_identification mDeep bDeep).source = "BOLD" ∧
    bDeep.ranks Rank.Kingdom = Cell.str "animalia" ∧
    (get_best_identification mDeep bDeep).ranks Rank.Kingdom = Cell.str "Animalia" := by
  decide

/-- Claim C4 (amended).  In the general branch, when the depths are
equal, a common rank `c` was found and the two returned values differ
under Python `!=`, every rank strictly more specific than `c` is
value-absent in the result, the source is BOLD (the depth tie), and
every rank down to `c` keeps the value the copy step assigned: BOLD's
value, except Kingdom, which is backfilled from the MIDORI row whenever
that row's Kingdom is present (and absent otherwise). -/
theorem C4_same_depth_truncation (m : MRow) (b : BRow) (c : Rank)
    (mv bv : Option Cell)
    (h1 : (rowNoMatch b.ranks && !rowNoMatch m.ranks) = false)
    (h2 : (rowNoMatch m.ranks && !rowNoMatch b.ranks) = false)
    (hc : resolveCommon m b = (some c, mv, bv))
    (hd : get_taxonomy_level m.ranks = get_taxonomy_level b.ranks)
    (hne : pyNe mv bv = true) :
    (get_best_identification m b).source = "BOLD" ∧
    (∀ l, rankIdx c < rankIdx l →
      present ((get_best_identification m b).ranks l) = false) ∧
    (∀ l, rankIdx l ≤ rankIdx c →
      (get_best_identification m b).ranks l =
        if l = Rank.Kingdom then
          (if present (m.ranks Rank.Kingdom) then m.ranks Rank.Kingdom
            else Cell.missing)
        else b.ranks l) := by
  have hng : ¬ get_taxonomy_level m.ranks > get_taxonomy_level b.ranks := by
    omega
  have hmain : (get_best_identification m b).ranks =
      clearBelow c (copyBoldRanks m b) := by
    simp only [get_best_identification]
    rw [if_neg (by simp [h1]), if_neg (by simp [h2]), hc]
    simp [hd, hne, hng]
  have hsrc : (get_best_identification m b).source = "BOLD" := by
    simp only [get_best_identification]
    rw [if_neg (by simp [h1]), if_neg (by simp [h2])]
    simp [hd]
  refine ⟨hsrc, ?_, ?_⟩
  · intro l hlt
    rw [hmain]
    simp only [clearBelow]
    rw [if_pos hlt]
    cases hof : offered (copyBoldRanks m b l) <;> simp [hof, present]
  · intro l hle
    rw [hmain]
    simp only [clearBelow]
    rw [if_neg (by omega)]
    cases l with
    | Kingdom => simp [copyBoldRanks]
    | Phylum => simp [copyBoldRanks]
    | Class => simp [copyBoldRanks]
    | Order => simp [copyBoldRanks]
    | Family => simp [copyBoldRanks]
    | Genus => simp [copyBoldRanks]
    | Species => simp [copyBoldRanks]

/-- Claim C4 (witness): applying the amended theorem to `mDeep`/`bDeep`
(common rank Class): the source is BOLD, Order — strictly more specific
than Class — is value-absent, Phylum keeps BOLD's Arthropoda, and
Kingdom holds the MIDORI backfill Animalia. -/
theorem C4_witness :
    (get_best_identification mDeep bDeep).source = "BOLD" ∧
    present ((get_best_identification mDeep bDeep).ranks Rank.Order) = false ∧
    (get_best_identification mDeep bDeep).ranks Rank.Phylum = Cell.str "Arthropoda" ∧
    (get_best_identification mDeep bDeep).ranks Rank.Kingdom = Cell.str "Animalia" := by
  have h := C4_same_depth_truncation mDeep bDeep Rank.Class
    (some (Cell.str "Insecta")) (some (Cell.str "insecta"))
    (by decide) (by decide) (by decide) (by decide) (by decide)
  refine ⟨h.1, h.2.1 Rank.Order (by decide), ?_, ?_⟩
  · have := h.2.2 Rank.Phylum (by decide)
    simpa using this
  · have := h.2.2 Rank.Kingdom (by decide)
    simpa using this

/-- Claim C8 (confirmed).  The driver emits exactly one output row per
row of table A, in A's row order: row `i` of the output is the consensus
record for A's row `i` when a B row with the same identifier exists
(the first such row), and otherwise A's row passed through verbatim,
tagged MIDORI, with the BOLD diagnostic columns left to be filled empty
at table assembly; and every output row carries the identifier of some
A row, so an unmatched B row is never emitted. -/
theorem C8_driver (ms : List (String × MRow)) (bs : List (String × BRow)) :
    (combineRows ms bs).length = ms.length ∧
    (∀ i p, ms.get? i = some p →
      ((bs.filter (fun q => q.1 == p.1) = [] →
        (combineRows ms bs).get? i =
          some (OutRow.passthrough p.1 p.2 "MIDORI") ∧
        ∀ x ∈ (OutRow.passthrough p.1 p.2 "MIDORI").boldDiags, cellOut x = "") ∧
      (∀ q qs, bs.filter (fun r => r.1 == p.1) = q :: qs →
        (combineRows ms bs).get? i =
          some (OutRow.matched p.1 (get_best_identification p.2 q.2))))) ∧
    (∀ o ∈ combineRows ms bs, ∃ p ∈ ms, OutRow.uid o = p.1) := by
  refine ⟨by simp [combineRows], ?_, ?_⟩
  · intro i p hp
    have hmap : (combineRows ms bs).get? i =
        ((ms.get? i).map fun r =>
          match bs.filter (fun q => q.1 == r.1) with
          | [] => OutRow.passthrough r.1 r.2 "MIDORI"
          | q :: _ => OutRow.matched r.1 (get_best_identification r.2 q.2)) := by
      simp [combineRows, List.get?_eq_getElem?, List.getElem?_map]
    constructor
    · intro hfil
      constructor
      · rw [hmap, hp]
        simp [hfil]
      · intro x hx
        simp only [OutRow.boldDiags, List.mem_cons, List.not_mem_nil, or_false] at hx
        rcases hx with h | h | h | h | h | h <;> rw [h] <;> rfl
    · intro q qs hfil
      rw [hmap, hp]
      simp [hfil]
  · intro o ho
    simp only [combineRows, List.mem_map] at ho
    obtain ⟨p, hp, rfl⟩ := ho
    refine ⟨p, hp, ?_⟩
    cases hfil : bs.filter (fun q => q.1 == p.1) with
    | nil => simp [hfil, OutRow.uid]
    | cons q qs => simp [hfil, OutRow.uid]

/-- A one-row A table and a B table whose only identifier does not
match it. -/
def msW : List (String × MRow) := [("sp1", mAgree)]

/-- The B table for the driver witness: identifier sp2 only. -/
def bsW : List (String × BRow) := [("sp2", bAgree)]

/-- Claim C8 (witness): with tables `msW`/`bsW` the single A row sp1 has
no B match and is passed through verbatim, tagged MIDORI. -/
theorem C8_witness :
    (combineRows msW bsW).get? 0 =
      some (OutRow.passthrough "sp1" mAgree "MIDORI") :=
  ((C8_driver msW bsW).2.1 0 ("sp1", mAgree) rfl).1 (by rfl) |>.1

end CombineTaxonomy
